import Mathlib

/-!
Verification development for the osd-alert-analysis repository.

This file gives a shallow embedding, in Lean 4, of the synchronization and
derived-attribute engine of the repository (src/models.py, src/updater.py):
the entity store with its get-or-create upsert, the derived-attribute
listeners (shift, namespace, silenced), the log-entry reconciliation, the
incident and alert sync loops, and the oldest-incident backfill measurement.
Python values that can be None are embedded as Option; Python exceptions are
embedded as Except values that carry the state mutated up to the raise, since
the sqlalchemy session keeps every staged mutation when an exception
propagates.  Text is embedded as String; the character-level helpers below
operate on List Char, which coincides with Python per-code-point semantics.
Timestamps: datetime.datetime values are embedded as a six-field record with
lexicographic comparison; datetime.fromisoformat parsing is abstracted (the
embedded API records carry already-parsed timestamps).
-/

deriving instance DecidableEq for Except

/-- Python exception kinds that appear in the modelled code paths. -/
inductive PyErr where
  | keyError
  | typeError
  | noResultFound
  deriving DecidableEq, Repr

/-- Embedding of datetime.datetime (UTC, microseconds dropped). -/
structure PyDateTime where
  year : Nat
  month : Nat
  day : Nat
  hour : Nat
  minute : Nat
  second : Nat
  deriving DecidableEq, Repr

/-- Python datetime comparison is lexicographic on the fields. -/
def pdLt (a b : PyDateTime) : Bool :=
  if a.year ≠ b.year then decide (a.year < b.year)
  else if a.month ≠ b.month then decide (a.month < b.month)
  else if a.day ≠ b.day then decide (a.day < b.day)
  else if a.hour ≠ b.hour then decide (a.hour < b.hour)
  else if a.minute ≠ b.minute then decide (a.minute < b.minute)
  else decide (a.second < b.second)

/-- datetime.max (year 9999-12-31 23:59:59, microseconds dropped). -/
def datetime_max : PyDateTime := ⟨9999, 12, 31, 23, 59, 59⟩

/-- Zero-padded decimal rendering, as Python str() does for date fields. -/
def padNat (k n : Nat) : String :=
  let s := toString n
  String.mk (List.replicate (k - s.length) '0') ++ s

/-- Python str() of a datetime.date: YYYY-MM-DD. -/
def dateStr (dt : PyDateTime) : String :=
  padNat 4 dt.year ++ "-" ++ padNat 2 dt.month ++ "-" ++ padNat 2 dt.day

/-- Python slicing s[:n] is by code point: take the first n characters. -/
def pySlice (n : Nat) (s : String) : String :=
  String.mk (s.data.take n)

/-- Python str(x) for an optional string: str(None) is the text None. -/
def pyStr (v : Option String) : String :=
  match v with
  | some s => s
  | none => "None"

/-- Python str.lower (ASCII range, which is all the code compares). -/
def pyLower (s : String) : String :=
  String.mk (s.data.map Char.toLower)

/-- Prefix test on character lists. -/
def isPrefixCL : List Char → List Char → Bool
  | [], _ => true
  | _ :: _, [] => false
  | a :: as, b :: bs => a == b && isPrefixCL as bs

/-- Substring test on character lists: Python operator in for str. -/
def isInfixCL (pat : List Char) : List Char → Bool
  | [] => isPrefixCL pat []
  | c :: cs => isPrefixCL pat (c :: cs) || isInfixCL pat cs

/-- Python substring test s2 in s1. -/
def strContains (s pat : String) : Bool :=
  isInfixCL pat.data s.data

/-- Python str.split() with no argument: split on whitespace runs,
dropping empty pieces.  Accumulator carries the current word reversed. -/
def pySplitAux : List Char → List Char → List (List Char)
  | [], cur => if cur.isEmpty then [] else [cur.reverse]
  | c :: cs, cur =>
    if c.isWhitespace then
      if cur.isEmpty then pySplitAux cs [] else cur.reverse :: pySplitAux cs []
    else pySplitAux cs (c :: cur)

/-- Python str.split() on a string. -/
def pySplit (s : String) : List (List Char) :=
  pySplitAux s.data []

/-- The silencing test from the listeners in src/models.py:
the text silent test occurring in str(entity.name).lower(). -/
def containsSilent (name : Option String) : Bool :=
  strContains (pyLower (pyStr name)) "silent test"


/-!
## Entity store (PDEntityMixin, src/models.py lines 63-132)

Every PagerDuty entity shares the envelope: a surrogate integer key, the
external pd_id, a display name and an html_url (both nullable, both stored
in String(511) columns).  Teams and agents are bare envelopes; incidents and
alerts extend the envelope with further columns.  A table is the list of its
rows plus the autoincrement counter for fresh surrogate keys.
-/

/-- The column set shared through PDEntityMixin. -/
structure Envelope where
  id : Nat
  pd_id : String
  name : Option String
  html_url : Option String
  deriving DecidableEq, Repr

/-- A database table: rows in insertion order plus the autoincrement state. -/
structure TableOf (ρ : Type) where
  rows : List ρ
  next_id : Nat
  deriving DecidableEq, Repr

/-- Replace the first element satisfying p (an in-place update of the row
the session query found). -/
def replaceFirst {ρ : Type} (p : ρ → Bool) (r : ρ) : List ρ → List ρ
  | [] => []
  | x :: xs => if p x then r :: xs else x :: replaceFirst p r xs

/-- The Python idiom v[:511] if v else None: a None or empty string maps to
NULL, anything else is truncated to 511 characters. -/
def pyTruncOpt (v : Option String) : Option String :=
  match v with
  | some s => if s = "" then none else some (pySlice 511 s)
  | none => none

/-- PDEntityMixin.get_or_create (src/models.py lines 79-110), generic over
the entity kind: env projects the envelope out of a row, upd writes an
envelope back into a row, mk builds a fresh row (remaining columns at their
defaults).  Looks the row up by pd_id; if found, overwrites name and
html_url in place; otherwise inserts a fresh row.  session.add stages the
row in the table either way. -/
def get_or_create {ρ : Type} (env : ρ → Envelope) (upd : ρ → Envelope → ρ)
    (mk : Envelope → ρ) (t : TableOf ρ) (pid : String)
    (nameArg urlArg : Option String) : ρ × TableOf ρ :=
  let name := pyTruncOpt nameArg
  let url := pyTruncOpt urlArg
  match t.rows.find? (fun r => (env r).pd_id == pid) with
  | some r =>
    let r2 := upd r { env r with name := name, html_url := url }
    (r2, { t with rows := replaceFirst (fun x => (env x).pd_id == pid) r2 t.rows })
  | none =>
    let r2 := mk { id := t.next_id, pd_id := pid, name := name, html_url := url }
    (r2, { rows := t.rows ++ [r2], next_id := t.next_id + 1 })

/-- A PagerDuty API sub-record with keys id, summary and html_url
(summary and html_url may be JSON null). -/
structure ApiRef where
  id : String
  summary : Option String
  html_url : Option String
  deriving DecidableEq, Repr

/-- Incident rows (class Incident, src/models.py lines 153-241).  The
relationship columns hold the related envelopes; silenced has column
default False. -/
structure IncidentRow where
  env : Envelope
  created_at : Option PyDateTime := none
  esc_policy : Option String := none
  service : Option String := none
  status : Option String := none
  urgency : Option String := none
  teams : List Envelope := []
  assigned_to : List Envelope := []
  acknowledged_by : List Envelope := []
  resolved_at : Option PyDateTime := none
  resolved_by : Option Envelope := none
  silenced : Bool := false
  deriving DecidableEq, Repr

/-- Alert rows (class Alert, src/models.py lines 278-410).  incident holds
the surrogate key of the linked incident (nullable foreign key column);
shift and the namespace column are the derived fields. -/
structure AlertRow where
  env : Envelope
  created_at : Option PyDateTime := none
  incident : Option Nat := none
  status : Option String := none
  severity : Option String := none
  suppressed : Option Bool := none
  cluster_id : Option String := none
  shift : Option String := none
  namespace_ : Option String := none
  firing_details : Option String := none
  deriving DecidableEq, Repr

/-- The database session: one table per model class. -/
structure Session where
  teams : TableOf Envelope := ⟨[], 0⟩
  agents : TableOf Envelope := ⟨[], 0⟩
  incidents : TableOf IncidentRow := ⟨[], 0⟩
  alerts : TableOf AlertRow := ⟨[], 0⟩
  deriving DecidableEq, Repr

/-- PDTeam.get_or_create. -/
def teamGetOrCreate (s : Session) (pid : String) (n u : Option String) :
    Envelope × Session :=
  let (e, t) := get_or_create (fun r => r) (fun _ e => e) (fun e => e) s.teams pid n u
  (e, { s with teams := t })

/-- PDAgent.get_or_create. -/
def agentGetOrCreate (s : Session) (pid : String) (n u : Option String) :
    Envelope × Session :=
  let (e, t) := get_or_create (fun r => r) (fun _ e => e) (fun e => e) s.agents pid n u
  (e, { s with agents := t })

/-- Incident.get_or_create: envelope columns live inside the incident row,
fresh rows take the column defaults. -/
def incidentGetOrCreate (s : Session) (pid : String) (n u : Option String) :
    IncidentRow × Session :=
  let (r, t) := get_or_create (fun r => r.env) (fun r e => { r with env := e })
    (fun e => { env := e }) s.incidents pid n u
  (r, { s with incidents := t })

/-- Alert.get_or_create. -/
def alertGetOrCreate (s : Session) (pid : String) (n u : Option String) :
    AlertRow × Session :=
  let (r, t) := get_or_create (fun r => r.env) (fun r e => { r with env := e })
    (fun e => { env := e }) s.alerts pid n u
  (r, { s with alerts := t })

/-- PDEntityMixin.from_pd_api_response for agents (src/models.py 112-126). -/
def agentFromApi (s : Session) (d : ApiRef) : Envelope × Session :=
  agentGetOrCreate s d.id d.summary d.html_url

/-- PDEntityMixin.from_pd_api_response for teams. -/
def teamFromApi (s : Session) (d : ApiRef) : Envelope × Session :=
  teamGetOrCreate s d.id d.summary d.html_url

/-- Write an already-staged incident row back into the session table (the
Python object is a live reference into the session; the model copies the
mutated value over the stored row, keyed by the surrogate id). -/
def Session.putIncident (s : Session) (r : IncidentRow) : Session :=
  { s with incidents :=
      { s.incidents with
        rows := replaceFirst (fun x => x.env.id == r.env.id) r s.incidents.rows } }

/-- Write an already-staged alert row back into the session table. -/
def Session.putAlert (s : Session) (r : AlertRow) : Session :=
  { s with alerts :=
      { s.alerts with
        rows := replaceFirst (fun x => x.env.id == r.env.id) r s.alerts.rows } }

/-!
## Derived attribute engine (src/models.py lines 244-275, 301-350, 413-432)
-/

/-- Alert.calculate_shift (src/models.py lines 301-323): maps a UTC datetime
to the on-call shift label, rendered as shift name followed by the calendar
date of the input in parentheses. -/
def calculate_shift (dt : PyDateTime) : String :=
  let date := dateStr dt
  let shift :=
    if dt.hour < 3 ∨ (dt.hour = 3 ∧ dt.minute < 30) then "APAC 1"
    else if dt.hour < 8 ∨ (dt.hour = 8 ∧ dt.minute < 30) then "APAC 2"
    else if dt.hour < 13 ∨ (dt.hour = 13 ∧ dt.minute < 30) then "EMEA"
    else if dt.hour < 18 then "NASA 1"
    else if dt.hour < 22 ∨ (dt.hour = 22 ∧ dt.minute < 30) then "NASA 2"
    else "APAC 1"
  shift ++ " (" ++ date ++ ")"

/-- The boundary table of spec section 4.3, written from the minutes-of-day
intervals of the claim (half-open lower bounds): this is the claim-side
description the code is compared against. -/
def shiftTable (h m : Nat) : String :=
  let t := h * 60 + m
  if t < 210 then "APAC 1"
  else if t < 510 then "APAC 2"
  else if t < 810 then "EMEA"
  else if t < 1080 then "NASA 1"
  else if t < 1350 then "NASA 2"
  else "APAC 1"

/-- Alert.standardize_name (src/models.py lines 325-350).  The input is an
optional string (the API field may be null); a None input raises TypeError
inside the try block and is re-raised as the single TypeError the method
documents, as is the IndexError from taking the first word of a string with
no words.  First-match-wins special cases, then the first whitespace token
truncated to 500 characters. -/
def standardize_name (raw : Option String) : Except PyErr String :=
  match raw with
  | none => .error .typeError
  | some s =>
    if strContains s "ClusterProvisioningDelay" then .ok "ClusterProvisioningDelay"
    else if strContains s "has gone missing" then .ok "ClusterHasGoneMissing"
    else if strContains s "Heartbeat.ping has failed" then .ok "HeartbeatPingFailed"
    else if strContains s "CUST ESCALATION" then .ok "CustomerEscalation"
    else
      match pySplit s with
      | [] => .error .typeError
      | w :: _ => .ok (String.mk (w.take 500))

/-- The literal part of the regex namespace = (.*) backslash-n from
_set_firing_details: the characters of the text namespace-space-equals-space. -/
def nsLit : List Char := ['n', 'a', 'm', 'e', 's', 'p', 'a', 'c', 'e', ' ', '=', ' ']

/-- The suffix part (.*) backslash-n of the regex at a fixed position: the
greedy dot cannot cross a newline, so the capture is everything up to the
first newline, and a newline must exist for the match to succeed. -/
def capLine : List Char → Option (List Char)
  | [] => none
  | c :: cs => if c = '\n' then some [] else (capLine cs).map (fun l => c :: l)

/-- re.search of the pattern namespace = (.*) backslash-n: try every start
position left to right; at a position the match needs the literal as a
prefix followed by a newline-terminated remainder of the line, which is the
capture. -/
def searchNs : List Char → Option (List Char)
  | [] => none
  | c :: cs =>
    match (if isPrefixCL nsLit (c :: cs) then capLine ((c :: cs).drop nsLit.length) else none) with
    | some cap => some cap
    | none => searchNs cs

/-- Split a character list into its newline-terminated lines (first
component, terminators dropped) and the trailing unterminated segment
(second component). -/
def linesAux : List Char → List (List Char) × List Char
  | [] => ([], [])
  | c :: cs =>
    let p := linesAux cs
    if c = '\n' then ([] :: p.1, p.2)
    else
      match p.1 with
      | [] => ([], c :: p.2)
      | l :: ls => ((c :: l) :: ls, p.2)

/-- Search one line for the literal, capturing the rest of the line after
the first occurrence (the greedy group runs to the end of the line). -/
def searchInLine : List Char → Option (List Char)
  | [] => none
  | c :: cs => if isPrefixCL nsLit (c :: cs) then some ((c :: cs).drop nsLit.length) else searchInLine cs

/-- Modelled from the claim wording: the pattern namespace = (.*) applied
line-by-line against the text, over all lines including a final line with
no trailing newline.  Used to compare the claim against the code. -/
def nsSpecAllLines (v : String) : Option String :=
  (((linesAux v.data).1 ++ [(linesAux v.data).2]).findSome? searchInLine).map String.mk

/-- The same line-by-line reading restricted to newline-terminated lines;
the equivalence theorem below shows this is exactly what the code computes. -/
def nsSpecTerminated (v : String) : Option String :=
  ((linesAux v.data).1.findSome? searchInLine).map String.mk

/-- The _set_firing_details listener (src/models.py lines 421-432): fires on
assignment to firing_details, stores the assigned text, and sets the
namespace column to the first regex capture; when the search fails, group(1)
raises AttributeError, which is caught and logged, leaving the namespace
column untouched. -/
def alert_set_firing_details (r : AlertRow) (text : String) : AlertRow :=
  let r := { r with firing_details := some text }
  match searchNs text.data with
  | some cap => { r with namespace_ := some (String.mk cap) }
  | none => r

/-- The _set_created_at listener (src/models.py lines 413-418): assignment
to created_at recomputes the shift column. -/
def alert_set_created_at (r : AlertRow) (dt : PyDateTime) : AlertRow :=
  { r with created_at := some dt, shift := some (calculate_shift dt) }

/-- The _set_assigned_to listener (src/models.py lines 245-255) together
with the collection replacement it instruments: silenced is recomputed by
scanning the whole new collection. -/
def incident_set_assigned_to (r : IncidentRow) (value : List Envelope) : IncidentRow :=
  { r with assigned_to := value,
           silenced := value.any (fun e => containsSilent e.name) }

/-- The _append_assigned_to listener (src/models.py lines 258-265) together
with the append it instruments: a matching child sets silenced, any other
child leaves it alone. -/
def incident_append_assigned (r : IncidentRow) (child : Envelope) : IncidentRow :=
  let r := { r with assigned_to := r.assigned_to ++ [child] }
  if containsSilent child.name then { r with silenced := true } else r

/-- The _remove_assigned_to listener (src/models.py lines 268-275) together
with the removal it instruments (the collection removes the first equal
member): a matching child clears silenced. -/
def incident_remove_assigned (r : IncidentRow) (child : Envelope) : IncidentRow :=
  let r := { r with assigned_to := r.assigned_to.erase child }
  if containsSilent child.name then { r with silenced := false } else r


/-!
## Log reconciliation (Incident.populate_via_api_log, src/models.py 179-209)

A log entry is a dict; the fields the method reads may be missing, which in
Python raises KeyError out of the method (there is no try block inside it).
The error constructor carries the session and incident state mutated before
the raise, mirroring that the sqlalchemy objects keep those mutations.
-/

/-- A log-entry record: type plus the sub-fields the code reads, each
optional because the key may be absent from the payload. -/
structure LogEntry where
  type_ : String
  created_at : Option PyDateTime := none
  agent : Option ApiRef := none
  assignees : Option (List ApiRef) := none
  deriving DecidableEq, Repr

/-- Well-formedness of one entry: the sub-fields the handler of its type
dereferences are present.  Entries of unhandled types need nothing. -/
def LogEntry.wfB (e : LogEntry) : Bool :=
  if e.type_ == "resolve_log_entry" then e.created_at.isSome && e.agent.isSome
  else if e.type_ == "acknowledge_log_entry" then e.agent.isSome
  else if e.type_ == "assign_log_entry" then e.assignees.isSome
  else true

/-- The inner loop of the assign_log_entry branch: upsert an agent per
assignee and append it to assigned_to (each append firing the silenced
listener). -/
def assignFold (start : Session × IncidentRow) (asgs : List ApiRef) : Session × IncidentRow :=
  asgs.foldl
    (fun sr ad =>
      let (ag, s) := agentFromApi sr.1 ad
      (s, incident_append_assigned sr.2 ag))
    start

/-- Incident.populate_via_api_log: one pass over the entries in order.
resolve_log_entry sets resolved_at then resolved_by; acknowledge_log_entry
appends an upserted agent to acknowledged_by; assign_log_entry appends an
upserted agent per assignee to assigned_to; any other type is ignored.  A
missing sub-field is a KeyError carrying the state mutated so far. -/
def populate_via_api_log (s : Session) (r : IncidentRow) :
    List LogEntry → Except (PyErr × Session × IncidentRow) (Session × IncidentRow)
  | [] => .ok (s, r)
  | e :: rest =>
    if e.type_ == "resolve_log_entry" then
      match e.created_at with
      | none => .error (.keyError, s, r)
      | some t =>
        let r := { r with resolved_at := some t }
        match e.agent with
        | none => .error (.keyError, s, r)
        | some ad =>
          let (ag, s) := agentFromApi s ad
          let r := { r with resolved_by := some ag }
          populate_via_api_log s r rest
    else if e.type_ == "acknowledge_log_entry" then
      match e.agent with
      | none => .error (.keyError, s, r)
      | some ad =>
        let (ag, s) := agentFromApi s ad
        let r := { r with acknowledged_by := r.acknowledged_by ++ [ag] }
        populate_via_api_log s r rest
    else if e.type_ == "assign_log_entry" then
      match e.assignees with
      | none => .error (.keyError, s, r)
      | some asgs =>
        let (s, r) := assignFold (s, r) asgs
        populate_via_api_log s r rest
    else populate_via_api_log s r rest

/-- The last resolve_log_entry of a list, used to state which entry a
reconciliation run leaves in the resolution fields. -/
def lastResolve : List LogEntry → Option LogEntry
  | [] => none
  | e :: rest =>
    match lastResolve rest with
    | some x => some x
    | none => if e.type_ == "resolve_log_entry" then some e else none

/-!
## Sync orchestrator (src/updater.py)

The upstream API is abstracted as data: an incident record carries the
already-fetched payload fields plus the log-entry stream that the updater
fetches for it; an alert record carries the payload of one alerts-endpoint
item.  Missing or null payload pieces that the code dereferences without a
try block are modelled as the error cases below.
-/

/-- One item of the incidents endpoint as read by
Incident.from_pd_api_response plus the log entries the updater fetches for
it.  escalation_policy is None when the key is missing (the code catches
that KeyError); service_summary is None when the service summary is missing
or null (the code does not catch that failure). -/
structure IncDict where
  id : String
  summary : Option String := none
  html_url : Option String := none
  created_at : PyDateTime
  escalation_policy : Option (String × String) := none
  service_summary : Option String := none
  status : String := "triggered"
  urgency : String := "high"
  teams : List ApiRef := []
  log_entries : List LogEntry := []
  deriving DecidableEq, Repr

/-- Upsert the team list of an incident payload in order. -/
def teamsFold (s : Session) (tds : List ApiRef) : List Envelope × Session :=
  tds.foldl
    (fun acc td =>
      let (e, s) := teamFromApi acc.2 td
      (acc.1 ++ [e], s))
    ([], s)

/-- Incident.from_pd_api_response (src/models.py lines 211-241): upsert the
envelope, set created_at, synthesize the escalation-policy label (missing
data caught and left unset), set service (uncaught failure when the summary
is missing or null), status, urgency, and the upserted team list.  On the
uncaught failure the staged row (with the mutations made so far) is written
back to the session, as the live Python object would be. -/
def incidentFromApi (s : Session) (d : IncDict) :
    Except (PyErr × Session) (Session × IncidentRow) :=
  let (r, s) := incidentGetOrCreate s d.id d.summary d.html_url
  let r := { r with created_at := some d.created_at }
  let r :=
    match d.escalation_policy with
    | some (esum, eid) => { r with esc_policy := some (esum ++ " (" ++ eid ++ ")") }
    | none => r
  match d.service_summary with
  | none => .error (.keyError, s.putIncident r)
  | some svc =>
    let r := { r with service := some (pySlice 255 svc),
                      status := some d.status, urgency := some d.urgency }
    let (tl, s) := teamsFold s d.teams
    let r := { r with teams := tl }
    .ok (s.putIncident r, r)

/-- One iteration body of IncidentCacheUpdater.update_incidents
(src/updater.py lines 74-91): build the incident from the payload, then
reconcile the log entries, then session.add.  Any exception is propagated to
the caller with the session state at the raise. -/
def processIncident (s : Session) (d : IncDict) :
    Except (PyErr × Session) (Session × IncidentRow) :=
  match incidentFromApi s d with
  | .error (e, s) => .error (e, s)
  | .ok (s, r) =>
    match populate_via_api_log s r d.log_entries with
    | .error (e, s, r) => .error (e, s.putIncident r)
    | .ok (s, r) => .ok (s.putIncident r, r)

/-- IncidentCacheUpdater.update_incidents (src/updater.py lines 56-93): walk
the upstream stream; a failing record is logged and skipped; a cached record
is appended to the result, and once the result has reached self.limit
records the loop breaks.  The check runs only after a successful append. -/
def update_incidents (limit : Nat) :
    Session → List IncDict → List IncidentRow → Session × List IncidentRow
  | s, [], acc => (s, acc)
  | s, d :: rest, acc =>
    match processIncident s d with
    | .error (_, s) => update_incidents limit s rest acc
    | .ok (s, inc) =>
      let acc := acc ++ [inc]
      if limit ≤ acc.length then (s, acc) else update_incidents limit s rest acc

/-- Decidable test for whether an incident payload processes without an
exception: the service summary is present and every log entry is
well-formed.  Matches processIncident by the lemmas below. -/
def incDictOk (d : IncDict) : Bool :=
  d.service_summary.isSome && d.log_entries.all LogEntry.wfB

/-- One item of the per-incident alerts endpoint as read by
Alert.from_pd_api_response.  alert_name and cluster_id are doubly optional:
the outer layer is key presence (a missing key raises KeyError, which the
code catches), the inner layer is JSON null.  firing is None when the key
path is missing (caught).  incident_id is the external id the payload names
as the parent incident. -/
structure AlertDict where
  id : String
  summary : Option String := none
  html_url : Option String := none
  status : String := "triggered"
  severity : String := "critical"
  suppressed : Bool := false
  created_at : PyDateTime
  incident_id : String
  alert_name : Option (Option String) := none
  cluster_id : Option (Option String) := none
  firing : Option String := none
  deriving DecidableEq, Repr

/-- Alert.from_pd_api_response (src/models.py lines 352-410).  The envelope
upsert stages the alert row in the session first; then status, severity,
suppressed and created_at (which fires the shift listener) are set; then the
parent incident is looked up by external id, and one() raises NoResultFound
when it is absent, leaving the staged row in the session; then the name
(with the summary fallback and TypeError recovery), cluster id and firing
details are set, each failure caught and left unset. -/
def alertFromApi (s : Session) (d : AlertDict) :
    Except (PyErr × Session) (Session × AlertRow) :=
  let (r, s) := alertGetOrCreate s d.id d.summary d.html_url
  let r := { r with status := some d.status, severity := some d.severity,
                    suppressed := some d.suppressed }
  let r := alert_set_created_at r d.created_at
  match s.incidents.rows.find? (fun i => i.env.pd_id == d.incident_id) with
  | none => .error (.noResultFound, s.putAlert r)
  | some inc =>
    let r := { r with incident := some inc.env.id }
    let r :=
      match d.alert_name with
      | some v =>
        match standardize_name v with
        | .ok nm => { r with env := { r.env with name := some nm } }
        | .error _ => r
      | none =>
        match standardize_name d.summary with
        | .ok nm => { r with env := { r.env with name := some nm } }
        | .error _ => r
    let r :=
      match d.cluster_id with
      | some v =>
        { r with cluster_id :=
            match v with
            | some c => if c = "" then none else some (pySlice 40 c)
            | none => none }
      | none => r
    let r :=
      match d.firing with
      | some text => alert_set_firing_details r text
      | none => r
    .ok (s.putAlert r, r)

/-- One iteration body of AlertCacheUpdater.update_alerts (src/updater.py
lines 125-138): a failing alert is logged and skipped (the session keeps
whatever the failed constructor staged), a successful one counts. -/
def updateAlertsStep (acc : Session × Nat) (d : AlertDict) : Session × Nat :=
  match alertFromApi acc.1 d with
  | .error (_, s) => (s, acc.2)
  | .ok (s, _) => (s, acc.2 + 1)

/-- AlertCacheUpdater.update_alerts (src/updater.py lines 113-139): for each
incident in order, walk that incident's alert feed in order; return the
count of newly cached alerts. -/
def update_alerts (s : Session) (feeds : List (List AlertDict)) : Session × Nat :=
  feeds.foldl (fun acc feed => feed.foldl updateAlertsStep acc) (s, 0)

/-!
## Backfill measurement (src/updater.py lines 142-161 and 282-302)
-/

/-- MySQL ascending order on a nullable timestamp column sorts NULL first. -/
def createdKeyLt : Option PyDateTime → Option PyDateTime → Bool
  | none, none => false
  | none, some _ => true
  | some _, none => false
  | some a, some b => pdLt a b

/-- The first row of the incident table in ascending created_at order.
The source filter Incident.created_at is not None is a Python identity test
on the column object, hence always true: no row is excluded. -/
def firstAscCreated (rows : List IncidentRow) : Option IncidentRow :=
  rows.foldl
    (fun best r =>
      match best with
      | none => some r
      | some b => if createdKeyLt r.created_at b.created_at then some r else some b)
    none

/-- oldest_incident_ctime (src/updater.py lines 142-161): the created_at of
the first row in ascending order; when the query returns no row, or the row
has a NULL created_at, the attribute access raises AttributeError, which is
caught, and datetime.max is returned. -/
def oldest_incident_ctime (rows : List IncidentRow) : PyDateTime :=
  match firstAscCreated rows with
  | none => datetime_max
  | some r =>
    match r.created_at with
    | none => datetime_max
    | some t => t

/-- The backfill decision of the main loop (src/updater.py line 283):
backfill is required when the oldest cached creation time is newer than the
backfill target. -/
def backfill_required (oldest target : PyDateTime) : Bool :=
  pdLt target oldest


/-!
## List helper lemmas
-/

theorem find?_append_of_none {α : Type} (p : α → Bool) (l1 l2 : List α)
    (h : l1.find? p = none) : (l1 ++ l2).find? p = l2.find? p := by
  induction l1 with
  | nil => rfl
  | cons a as ih =>
    have hall := List.find?_eq_none.mp h
    have ha : p a = false := by simpa using hall a (List.mem_cons_self a as)
    have htail : as.find? p = none :=
      List.find?_eq_none.mpr fun x hx => hall x (List.mem_cons_of_mem a hx)
    simp only [List.cons_append, List.find?, ha]
    exact ih htail

theorem replaceFirst_append_of_none {α : Type} (p : α → Bool) (r : α) (l1 l2 : List α)
    (h : l1.find? p = none) : replaceFirst p r (l1 ++ l2) = l1 ++ replaceFirst p r l2 := by
  induction l1 with
  | nil => rfl
  | cons a as ih =>
    have hall := List.find?_eq_none.mp h
    have ha : p a = false := by simpa using hall a (List.mem_cons_self a as)
    have htail : as.find? p = none :=
      List.find?_eq_none.mpr fun x hx => hall x (List.mem_cons_of_mem a hx)
    simp only [List.cons_append, replaceFirst, ha, Bool.false_eq_true, if_false,
      List.append_eq]
    rw [ih htail]

theorem countP_replaceFirst {α : Type} (p : α → Bool) (r : α) (l : List α)
    (hr : p r = true) : (replaceFirst p r l).countP p = l.countP p := by
  induction l with
  | nil => rfl
  | cons a as ih =>
    cases ha : p a with
    | true => simp [replaceFirst, ha, List.countP_cons, hr]
    | false => simp [replaceFirst, ha, List.countP_cons, ih]

theorem find?_replaceFirst {α : Type} (p : α → Bool) (r x : α) (l : List α)
    (hl : l.find? p = some x) (hr : p r = true) :
    (replaceFirst p r l).find? p = some r := by
  induction l with
  | nil => simp [List.find?] at hl
  | cons a as ih =>
    cases ha : p a with
    | true => simp [replaceFirst, ha, List.find?, hr]
    | false =>
      simp only [List.find?, ha] at hl
      simp [replaceFirst, ha, List.find?, ih hl]

theorem countP_pos_of_find? {α : Type} (p : α → Bool) (x : α) (l : List α)
    (h : l.find? p = some x) : 1 ≤ l.countP p := by
  have hm := List.mem_of_find?_eq_some h
  have hp := List.find?_some h
  exact Nat.succ_le_of_lt (List.countP_pos_iff.mpr ⟨x, hm, hp⟩)

theorem countP_eq_zero_of_find?_none {α : Type} (p : α → Bool) (l : List α)
    (h : l.find? p = none) : l.countP p = 0 :=
  List.countP_eq_zero.mpr (List.find?_eq_none.mp h)

/-!
## C1: upsert idempotence of get_or_create
-/

/-- C1.  For every entity kind (the statement is generic over the row type,
with the mixin lawfulness of the envelope accessors as hypotheses, so it
instantiates at teams, agents, incidents and alerts alike) and for every
table whose rows hold the unique-column invariant for the external id,
calling get_or_create twice with the same pd_id yields exactly one row for
that pd_id, the second call returns the same surrogate identity as the
first, the stored name and html_url are the second call's values mapped
through the Python truncation idiom (truncation to 511 characters, None or
empty mapping to unset), and the stored row is the returned one.  Note the
idiom maps an empty string, not only None, to an unset field; the
counterexample below shows the claim's description of that mapping is
incomplete, which is the amendment. -/
theorem get_or_create_upsert {ρ : Type} (env : ρ → Envelope) (upd : ρ → Envelope → ρ)
    (mk : Envelope → ρ)
    (hupd : ∀ r e, env (upd r e) = e) (hmk : ∀ e, env (mk e) = e)
    (t : TableOf ρ) (pid : String) (n1 u1 n2 u2 : Option String)
    (e1 e2 : ρ) (t1 t2 : TableOf ρ)
    (huniq : t.rows.countP (fun r => (env r).pd_id == pid) ≤ 1)
    (h1 : get_or_create env upd mk t pid n1 u1 = (e1, t1))
    (h2 : get_or_create env upd mk t1 pid n2 u2 = (e2, t2)) :
    t2.rows.countP (fun r => (env r).pd_id == pid) = 1
    ∧ (env e2).id = (env e1).id
    ∧ (env e2).name = pyTruncOpt n2
    ∧ (env e2).html_url = pyTruncOpt u2
    ∧ t2.rows.find? (fun r => (env r).pd_id == pid) = some e2 := by
  unfold get_or_create at h1 h2
  cases hf : t.rows.find? (fun r => (env r).pd_id == pid) with
  | some r0 =>
    rw [hf] at h1
    obtain ⟨he1, ht1⟩ := Prod.mk.injEq .. ▸ h1
    have pr0 : ((env r0).pd_id == pid) = true := by
      have h' := List.find?_some hf
      simpa using h'
    have henv1 : env e1 = { env r0 with name := pyTruncOpt n1, html_url := pyTruncOpt u1 } := by
      rw [← he1, hupd]
    have pe1 : ((env e1).pd_id == pid) = true := by rw [henv1]; exact pr0
    rw [he1] at ht1
    have hrows1 : t1.rows = replaceFirst (fun x => (env x).pd_id == pid) e1 t.rows := by
      rw [← ht1]
    have hfind1 : t1.rows.find? (fun r => (env r).pd_id == pid) = some e1 := by
      rw [hrows1]; exact find?_replaceFirst _ _ _ _ hf pe1
    rw [hfind1] at h2
    obtain ⟨he2, ht2⟩ := Prod.mk.injEq .. ▸ h2
    have henv2 : env e2 = { env e1 with name := pyTruncOpt n2, html_url := pyTruncOpt u2 } := by
      rw [← he2, hupd]
    have pe2 : ((env e2).pd_id == pid) = true := by rw [henv2]; exact pe1
    rw [he2] at ht2
    have hrows2 : t2.rows = replaceFirst (fun x => (env x).pd_id == pid) e2 t1.rows := by
      rw [← ht2]
    have hcount1 : 1 ≤ t.rows.countP (fun r => (env r).pd_id == pid) :=
      countP_pos_of_find? _ _ _ hf
    have hcount : t.rows.countP (fun r => (env r).pd_id == pid) = 1 :=
      Nat.le_antisymm huniq hcount1
    refine ⟨?_, ?_, ?_, ?_, ?_⟩
    · rw [hrows2, countP_replaceFirst (fun x => (env x).pd_id == pid) e2 t1.rows pe2,
        hrows1, countP_replaceFirst (fun x => (env x).pd_id == pid) e1 t.rows pe1, hcount]
    · rw [henv2, henv1]
    · rw [henv2]
    · rw [henv2]
    · rw [hrows2]; exact find?_replaceFirst _ _ _ _ hfind1 pe2
  | none =>
    rw [hf] at h1
    obtain ⟨he1, ht1⟩ := Prod.mk.injEq .. ▸ h1
    have henv1 : env e1 = ⟨t.next_id, pid, pyTruncOpt n1, pyTruncOpt u1⟩ := by
      rw [← he1, hmk]
    have pe1 : ((env e1).pd_id == pid) = true := by rw [henv1]; simp
    rw [he1] at ht1
    have hrows1 : t1.rows = t.rows ++ [e1] := by rw [← ht1]
    have hzero : t.rows.countP (fun r => (env r).pd_id == pid) = 0 :=
      countP_eq_zero_of_find?_none _ _ hf
    have hfind1 : t1.rows.find? (fun r => (env r).pd_id == pid) = some e1 := by
      rw [hrows1, find?_append_of_none _ _ _ hf]
      simp [List.find?, pe1]
    rw [hfind1] at h2
    obtain ⟨he2, ht2⟩ := Prod.mk.injEq .. ▸ h2
    have henv2 : env e2 = { env e1 with name := pyTruncOpt n2, html_url := pyTruncOpt u2 } := by
      rw [← he2, hupd]
    have pe2 : ((env e2).pd_id == pid) = true := by rw [henv2]; exact pe1
    rw [he2] at ht2
    have hrows2 : t2.rows = t.rows ++ [e2] := by
      rw [← ht2, hrows1, replaceFirst_append_of_none _ _ _ _ hf]
      simp [replaceFirst, pe1]
    refine ⟨?_, ?_, ?_, ?_, ?_⟩
    · rw [hrows2]; simp [List.countP_append, hzero, List.countP_cons, pe2]
    · rw [henv2]
    · rw [henv2]
    · rw [henv2]
    · rw [hrows2, find?_append_of_none _ _ _ hf]; simp [List.find?, pe2]

/-- The claim-side description of the field mapping: truncation to 511
characters, with only None mapping to an unset field.  Modelled from the
claim wording, for comparison with the Python idiom in get_or_create. -/
def specTruncOnly (v : Option String) : Option String :=
  v.map (pySlice 511)

/-- C1 counterexample.  Upserting with an empty-string name stores an unset
name, not the empty string the claim's description (truncate, None maps to
unset) would give: the claim as stated fails at this input. -/
theorem get_or_create_empty_name_counterexample :
    ((get_or_create (fun r => r) (fun _ e => e) (fun e => e)
        (get_or_create (fun r => r) (fun _ e => e) (fun e => e) (⟨[], 0⟩ : TableOf Envelope)
          "PX" (some "Name") (some "http")).2
        "PX" (some "") (some "http")).1).name = none
    ∧ specTruncOnly (some "") = some ""
    ∧ ((none : Option String) ≠ some "") := by
  refine ⟨by decide, by decide, by decide⟩

/-- C1 witness: the upsert theorem applied to a concrete agent table. -/
theorem get_or_create_upsert_witness :
    ((⟨[⟨0, "PA", some "New", some "u"⟩], 1⟩ : TableOf Envelope).rows.countP
        (fun r => r.pd_id == "PA") = 1)
    ∧ ((⟨0, "PA", some "New", some "u"⟩ : Envelope).id = (⟨0, "PA", some "Old", none⟩ : Envelope).id)
    ∧ ((⟨0, "PA", some "New", some "u"⟩ : Envelope).name = pyTruncOpt (some "New"))
    ∧ ((⟨0, "PA", some "New", some "u"⟩ : Envelope).html_url = pyTruncOpt (some "u"))
    ∧ ((⟨[⟨0, "PA", some "New", some "u"⟩], 1⟩ : TableOf Envelope).rows.find?
        (fun r => r.pd_id == "PA") = some ⟨0, "PA", some "New", some "u"⟩) :=
  get_or_create_upsert (fun r => r) (fun _ e => e) (fun e => e)
    (fun _ _ => rfl) (fun _ => rfl) ⟨[], 0⟩ "PA" (some "Old") none (some "New") (some "u")
    ⟨0, "PA", some "Old", none⟩ ⟨0, "PA", some "New", some "u"⟩
    ⟨[⟨0, "PA", some "Old", none⟩], 1⟩ ⟨[⟨0, "PA", some "New", some "u"⟩], 1⟩
    (by decide) (by decide) (by decide)

/-!
## C2: the silenced flag under assignment mutations
-/

/-- The silencing test on an agent envelope. -/
def isSilentE (e : Envelope) : Bool :=
  containsSilent e.name

theorem any_perm {α : Type} (p : α → Bool) {l1 l2 : List α} (h : List.Perm l1 l2) :
    l1.any p = l2.any p := by
  rw [Bool.eq_iff_iff, List.any_eq_true, List.any_eq_true]
  exact ⟨fun ⟨x, hm, hp⟩ => ⟨x, h.mem_iff.mp hm, hp⟩,
         fun ⟨x, hm, hp⟩ => ⟨x, h.mem_iff.mpr hm, hp⟩⟩

/-- C2.  Under the hypothesis that the silenced flag agrees with the
assignment collection (the invariant the listeners maintain), each mutation
path keeps it in agreement: set-replacement recomputes from the whole new
collection; appending a matching agent sets the flag, appending a
non-matching one leaves it; removing a matching agent clears the flag,
removing a non-matching one leaves it; and under the at-most-one-silencing-
agent assumption, the flag equals the membership predicate after a removal
of a member as well as after an append. -/
theorem silenced_invariant (r : IncidentRow) (value : List Envelope) (child : Envelope)
    (hsync : r.silenced = r.assigned_to.any isSilentE) :
    ((incident_set_assigned_to r value).assigned_to = value
      ∧ (incident_set_assigned_to r value).silenced = value.any isSilentE)
    ∧ ((incident_append_assigned r child).assigned_to = r.assigned_to ++ [child]
      ∧ (incident_append_assigned r child).silenced = (r.assigned_to ++ [child]).any isSilentE)
    ∧ (containsSilent child.name = true → (incident_append_assigned r child).silenced = true)
    ∧ (containsSilent child.name = false →
        (incident_append_assigned r child).silenced = r.silenced
        ∧ (incident_remove_assigned r child).silenced = r.silenced)
    ∧ (containsSilent child.name = true → (incident_remove_assigned r child).silenced = false)
    ∧ (child ∈ r.assigned_to → r.assigned_to.countP isSilentE ≤ 1 →
        (incident_remove_assigned r child).assigned_to = r.assigned_to.erase child
        ∧ (incident_remove_assigned r child).silenced = (r.assigned_to.erase child).any isSilentE) := by
  refine ⟨⟨rfl, rfl⟩, ⟨?_, ?_⟩, ?_, ?_, ?_, ?_⟩
  · unfold incident_append_assigned
    cases h : containsSilent child.name <;> simp
  · unfold incident_append_assigned
    cases h : containsSilent child.name with
    | true => simp [List.any_append, isSilentE, h]
    | false => simp [List.any_append, isSilentE, h, hsync]
  · intro h
    unfold incident_append_assigned
    simp [h]
  · intro h
    unfold incident_append_assigned incident_remove_assigned
    simp [h]
  · intro h
    unfold incident_remove_assigned
    simp [h]
  · intro hmem hcount
    have hperm := List.perm_cons_erase hmem
    constructor
    · unfold incident_remove_assigned
      cases h : containsSilent child.name <;> simp
    · cases h : containsSilent child.name with
      | true =>
        have hc : r.assigned_to.countP isSilentE
            = (r.assigned_to.erase child).countP isSilentE + 1 := by
          rw [hperm.countP_eq isSilentE]
          simp [List.countP_cons, isSilentE, h]
        have hz : (r.assigned_to.erase child).countP isSilentE = 0 := by omega
        have hall := List.countP_eq_zero.mp hz
        have hany : (r.assigned_to.erase child).any isSilentE = false := by
          rw [Bool.eq_false_iff]
          intro hx
          obtain ⟨x, hm, hp⟩ := List.any_eq_true.mp hx
          exact hall x hm hp
        unfold incident_remove_assigned
        simp [h, hany]
      | false =>
        have hany : r.assigned_to.any isSilentE = (r.assigned_to.erase child).any isSilentE := by
          rw [any_perm isSilentE hperm]
          simp [List.any_cons, isSilentE, h]
        unfold incident_remove_assigned
        simp [h, hsync, hany]

/-- C2 witness: a silent-test agent appended to a fresh incident sets the
flag; removing that agent from an incident assigned only to it clears the
flag; a non-matching agent changes nothing. -/
theorem silenced_invariant_witness :
    (incident_append_assigned { env := ⟨0, "PI", none, none⟩ }
        ⟨1, "PU", some "Silent Test", none⟩).silenced = true
    ∧ (incident_remove_assigned
        { env := ⟨0, "PI", none, none⟩,
          assigned_to := [⟨1, "PU", some "Silent Test", none⟩], silenced := true }
        ⟨1, "PU", some "Silent Test", none⟩).silenced = false
    ∧ (incident_append_assigned { env := ⟨0, "PI", none, none⟩ }
        ⟨2, "PV", some "A Person", none⟩).silenced = false :=
  ⟨(silenced_invariant { env := ⟨0, "PI", none, none⟩ } []
      ⟨1, "PU", some "Silent Test", none⟩ (by decide)).2.2.1 (by decide),
   (silenced_invariant
      { env := ⟨0, "PI", none, none⟩,
        assigned_to := [⟨1, "PU", some "Silent Test", none⟩], silenced := true } []
      ⟨1, "PU", some "Silent Test", none⟩ (by decide)).2.2.2.2.1 (by decide),
   ((silenced_invariant { env := ⟨0, "PI", none, none⟩ } []
      ⟨2, "PV", some "A Person", none⟩ (by decide)).2.2.2.1 (by decide)).1⟩

/-!
## C3: calculate_shift against the boundary table
-/

/-- C3.  For every datetime with in-range hour and minute fields,
calculate_shift renders the shift name given by the boundary table of the
claim followed by the calendar date of the input (so the 2230-2400 band
keeps the same date). -/
theorem calculate_shift_table (dt : PyDateTime) (hh : dt.hour < 24) (hm : dt.minute < 60) :
    calculate_shift dt = shiftTable dt.hour dt.minute ++ " (" ++ dateStr dt ++ ")" := by
  simp only [calculate_shift, shiftTable]
  split_ifs <;> first | rfl | omega

/-- C3 witness: the theorem at the 0330 boundary instant, plus directly
evaluated boundary labels, including the same-date late band. -/
theorem calculate_shift_table_witness :
    (calculate_shift ⟨2024, 1, 5, 3, 30, 0⟩
        = shiftTable 3 30 ++ " (" ++ dateStr ⟨2024, 1, 5, 3, 30, 0⟩ ++ ")")
    ∧ calculate_shift ⟨2024, 1, 5, 3, 30, 0⟩ = "APAC 2 (2024-01-05)"
    ∧ calculate_shift ⟨2024, 1, 5, 3, 29, 59⟩ = "APAC 1 (2024-01-05)"
    ∧ calculate_shift ⟨2024, 1, 5, 22, 30, 0⟩ = "APAC 1 (2024-01-05)"
    ∧ calculate_shift ⟨2024, 1, 5, 23, 59, 59⟩ = "APAC 1 (2024-01-05)"
    ∧ calculate_shift ⟨2024, 1, 5, 13, 30, 0⟩ = "NASA 1 (2024-01-05)" :=
  ⟨calculate_shift_table ⟨2024, 1, 5, 3, 30, 0⟩ (by decide) (by decide),
   by decide, by decide, by decide, by decide, by decide⟩

/-!
## C5: the oldest-incident measurement on an empty cache
-/

/-- C5 counterexample.  With an empty incident cache the measurement
returns datetime.max, the maximally new value, and the main loop's
comparison against a backfill target therefore does demand a further
backfill iteration: the claim that an empty cache never triggers further
backfill fails at this input. -/
theorem empty_cache_backfill_counterexample :
    oldest_incident_ctime [] = datetime_max
    ∧ backfill_required (oldest_incident_ctime []) ⟨2026, 10, 12, 0, 0, 0⟩ = true :=
  ⟨rfl, by decide⟩

/-- C5 amended: the empty-cache sentinel is datetime.max, which is maximally
new, not maximally old, so for every backfill target earlier than
datetime.max an empty cache triggers a further backfill iteration; the loop
is bounded by the attempts budget, not by this measurement. -/
theorem empty_cache_measures_datetime_max (target : PyDateTime)
    (h : pdLt target datetime_max = true) :
    oldest_incident_ctime [] = datetime_max
    ∧ backfill_required (oldest_incident_ctime []) target = true :=
  ⟨rfl, h⟩

/-- C5 witness: the amended statement at a concrete target. -/
theorem empty_cache_measures_datetime_max_witness :
    oldest_incident_ctime [] = datetime_max
    ∧ backfill_required (oldest_incident_ctime []) ⟨2026, 1, 1, 0, 0, 0⟩ = true :=
  empty_cache_measures_datetime_max ⟨2026, 1, 1, 0, 0, 0⟩ (by decide)

/-!
## C6: the namespace extraction

The equivalence below identifies what re.search of the pattern
namespace = (.*) backslash-n computes with the line-by-line reading over
newline-terminated lines, which is the correct form of the claim.
-/

theorem nsLit_no_newline : '\n' ∉ nsLit := by decide

theorem capLine_no_newline : ∀ (u : List Char), '\n' ∉ u → capLine u = none
  | [], _ => rfl
  | c :: cs, h => by
    have hc : ¬(c = '\n') := fun hh => h (by rw [hh] at *; exact List.mem_cons_self _ _)
    have ht : capLine cs = none :=
      capLine_no_newline cs fun hm => h (List.mem_cons_of_mem _ hm)
    simp [capLine, hc, ht]

theorem capLine_append_newline : ∀ (u r : List Char), '\n' ∉ u →
    capLine (u ++ '\n' :: r) = some u
  | [], r, _ => by simp [capLine]
  | c :: cs, r, h => by
    have hc : ¬(c = '\n') := fun hh => h (by rw [hh] at *; exact List.mem_cons_self _ _)
    have ht := capLine_append_newline cs r fun hm => h (List.mem_cons_of_mem _ hm)
    simp [capLine, hc, ht]

theorem isPrefixCL_append_newline (pat : List Char) (hp : '\n' ∉ pat) :
    ∀ (L r : List Char), isPrefixCL pat (L ++ '\n' :: r) = isPrefixCL pat L := by
  induction pat with
  | nil => intro L r; cases L <;> rfl
  | cons p ps ih =>
    intro L r
    have hpne : ¬(p = '\n') := fun hh => hp (by rw [hh] at *; exact List.mem_cons_self _ _)
    have hps : '\n' ∉ ps := fun hm => hp (List.mem_cons_of_mem _ hm)
    cases L with
    | nil => simp [isPrefixCL, hpne]
    | cons a L2 => simp [isPrefixCL, ih hps]

theorem isPrefixCL_length_le : ∀ (pat L : List Char), isPrefixCL pat L = true →
    pat.length ≤ L.length
  | [], _, _ => Nat.zero_le _
  | p :: ps, [], h => by simp [isPrefixCL] at h
  | p :: ps, a :: L2, h => by
    simp only [isPrefixCL, Bool.and_eq_true] at h
    have := isPrefixCL_length_le ps L2 h.2
    simpa [Nat.succ_le_succ_iff] using this

theorem linesAux_nil_no_newline : ∀ (cs : List Char), (linesAux cs).1 = [] → '\n' ∉ cs
  | [], _ => by simp
  | c :: cs, h => by
    by_cases hc : c = '\n'
    · subst hc
      simp [linesAux] at h
    · rcases hsplit : (linesAux cs).1 with _ | ⟨l0, ls0⟩
      · have htail := linesAux_nil_no_newline cs hsplit
        simp only [List.mem_cons]
        rintro (hh | hh)
        · exact hc hh.symm
        · exact htail hh
      · exfalso
        rw [show linesAux (c :: cs) = ((c :: l0) :: ls0, (linesAux cs).2) from by
          simp [linesAux, hc, hsplit]] at h
        simp at h

theorem linesAux_cons_structure : ∀ (cs l : List Char) (ls : List (List Char))
    (t : List Char), linesAux cs = (l :: ls, t) →
    ∃ rest, cs = l ++ '\n' :: rest ∧ linesAux rest = (ls, t) ∧ '\n' ∉ l := by
  intro cs
  induction cs with
  | nil =>
    intro l ls t h
    simp [linesAux] at h
  | cons c cs ih =>
    intro l ls t h
    by_cases hc : c = '\n'
    · subst hc
      rw [show linesAux ('\n' :: cs) = ([] :: (linesAux cs).1, (linesAux cs).2) from by
        simp [linesAux]] at h
      obtain ⟨h1, h2⟩ := Prod.mk.injEq .. ▸ h
      obtain ⟨hl, hls⟩ := List.cons.injEq .. ▸ h1
      refine ⟨cs, ?_, ?_, ?_⟩
      · rw [← hl]; rfl
      · rw [← hls, ← h2]
      · rw [← hl]; simp
    · rcases hsplit : (linesAux cs).1 with _ | ⟨l0, ls0⟩
      · exfalso
        rw [show linesAux (c :: cs) = ([], c :: (linesAux cs).2) from by
          simp [linesAux, hc, hsplit]] at h
        simp at h
      · rw [show linesAux (c :: cs) = ((c :: l0) :: ls0, (linesAux cs).2) from by
          simp [linesAux, hc, hsplit]] at h
        obtain ⟨h1, h2⟩ := Prod.mk.injEq .. ▸ h
        obtain ⟨hl, hls⟩ := List.cons.injEq .. ▸ h1
        have hfull : linesAux cs = (l0 :: ls0, (linesAux cs).2) := by
          rw [← hsplit]
        obtain ⟨rest, hr1, hr2, hr3⟩ := ih l0 ls0 (linesAux cs).2 hfull
        refine ⟨rest, ?_, ?_, ?_⟩
        · rw [← hl]
          simp [hr1]
        · rw [hr2, ← hls, ← h2]
        · rw [← hl]
          simp only [List.mem_cons]
          rintro (hh | hh)
          · exact hc hh.symm
          · exact hr3 hh

theorem searchNs_eq_terminated : ∀ (text : List Char),
    searchNs text = (linesAux text).1.findSome? searchInLine := by
  intro text
  induction text with
  | nil => rfl
  | cons c cs ih =>
    by_cases hc : c = '\n'
    · subst hc
      have hpref : isPrefixCL nsLit ('\n' :: cs) = false := by
        simp [nsLit, isPrefixCL]
      rw [show linesAux ('\n' :: cs) = ([] :: (linesAux cs).1, (linesAux cs).2) from by
        simp [linesAux]]
      simp only [searchNs, hpref, Bool.false_eq_true, if_false]
      rw [ih]
      simp [List.findSome?_cons, searchInLine]
    · rcases hsplit : (linesAux cs).1 with _ | ⟨l0, ls0⟩
      · have hnn : '\n' ∉ cs := linesAux_nil_no_newline cs hsplit
        have hnn2 : '\n' ∉ c :: cs := by
          simp only [List.mem_cons]
          rintro (hh | hh)
          · exact hc hh.symm
          · exact hnn hh
        rw [show linesAux (c :: cs) = ([], c :: (linesAux cs).2) from by
          simp [linesAux, hc, hsplit]]
        have hcap : capLine ((c :: cs).drop nsLit.length) = none :=
          capLine_no_newline _ fun hm => hnn2 (List.mem_of_mem_drop hm)
        cases hp : isPrefixCL nsLit (c :: cs) with
        | false =>
          simp only [searchNs, hp, Bool.false_eq_true, if_false]
          rw [ih, hsplit]
        | true =>
          simp only [searchNs, hp, if_true, hcap]
          rw [ih, hsplit]
      · have hfull : linesAux cs = (l0 :: ls0, (linesAux cs).2) := by rw [← hsplit]
        obtain ⟨rest, hr1, hr2, hr3⟩ := linesAux_cons_structure cs l0 ls0 _ hfull
        have hdecomp : c :: cs = (c :: l0) ++ '\n' :: rest := by simp [hr1]
        have hnl0 : '\n' ∉ c :: l0 := by
          simp only [List.mem_cons]
          rintro (hh | hh)
          · exact hc hh.symm
          · exact hr3 hh
        have hkey : isPrefixCL nsLit (c :: cs) = isPrefixCL nsLit (c :: l0) := by
          rw [hdecomp, isPrefixCL_append_newline nsLit nsLit_no_newline]
        rw [show linesAux (c :: cs) = ((c :: l0) :: ls0, (linesAux cs).2) from by
          simp [linesAux, hc, hsplit]]
        cases hp : isPrefixCL nsLit (c :: l0) with
        | true =>
          have hlen : nsLit.length ≤ (c :: l0).length := isPrefixCL_length_le _ _ hp
          have hdrop : (c :: cs).drop nsLit.length
              = (c :: l0).drop nsLit.length ++ '\n' :: rest := by
            rw [hdecomp, List.drop_append_of_le_length hlen]
          have hnl2 : '\n' ∉ (c :: l0).drop nsLit.length :=
            fun hm => hnl0 (List.mem_of_mem_drop hm)
          have hcap : capLine ((c :: cs).drop nsLit.length)
              = some ((c :: l0).drop nsLit.length) := by
            rw [hdrop]
            exact capLine_append_newline _ _ hnl2
          rw [show searchNs (c :: cs)
              = (match (if isPrefixCL nsLit (c :: cs) then
                  capLine ((c :: cs).drop nsLit.length) else none) with
                 | some cap => some cap
                 | none => searchNs cs) from rfl]
          rw [hkey, hp, if_pos rfl, hcap, List.findSome?_cons]
          have hsil : searchInLine (c :: l0) = some ((c :: l0).drop nsLit.length) := by
            rw [show searchInLine (c :: l0)
                = (if isPrefixCL nsLit (c :: l0) then some ((c :: l0).drop nsLit.length)
                   else searchInLine l0) from rfl]
            rw [hp, if_pos rfl]
          rw [hsil]
        | false =>
          rw [show searchNs (c :: cs)
              = (match (if isPrefixCL nsLit (c :: cs) then
                  capLine ((c :: cs).drop nsLit.length) else none) with
                 | some cap => some cap
                 | none => searchNs cs) from rfl]
          rw [hkey, hp]
          simp only [Bool.false_eq_true, if_false]
          have hsil : searchInLine (c :: l0) = searchInLine l0 := by
            rw [show searchInLine (c :: l0)
                = (if isPrefixCL nsLit (c :: l0) then some ((c :: l0).drop nsLit.length)
                   else searchInLine l0) from rfl, hp]
            simp
          have hr : List.findSome? searchInLine ((c :: l0) :: ls0)
              = List.findSome? searchInLine (l0 :: ls0) := by
            rw [List.findSome?_cons, List.findSome?_cons, hsil]
          rw [ih, hsplit, hr]

/-- C6 counterexample.  A firing-details text whose only line has no
trailing newline: applying the pattern line-by-line (the claim wording, all
lines included) captures foo, but the code's regex requires the trailing
newline, so the namespace column stays unset: the claim as stated fails at
this input. -/
theorem namespace_unterminated_counterexample :
    nsSpecAllLines "namespace = foo" = some "foo"
    ∧ (alert_set_firing_details { env := ⟨0, "PAL", none, none⟩ }
        "namespace = foo").namespace_ = none
    ∧ (some "foo" ≠ (none : Option String)) :=
  ⟨by decide, by decide, by decide⟩

/-- C6 amended.  For every alert row and every assigned text, the listener
stores the text and sets the namespace column to the first capture of the
pattern applied line-by-line over the newline-terminated lines of the text
(a final line with no trailing newline never matches); when no such line
matches, the namespace column is left untouched (unset stays unset, with a
warning logged), and the computation is total, never failing the enclosing
caching operation. -/
theorem set_firing_details_spec (r : AlertRow) (v : String) :
    (alert_set_firing_details r v).firing_details = some v
    ∧ (alert_set_firing_details r v).namespace_ =
        (match nsSpecTerminated v with
         | some c => some c
         | none => r.namespace_) := by
  unfold alert_set_firing_details nsSpecTerminated
  rw [searchNs_eq_terminated]
  cases h : (linesAux v.data).1.findSome? searchInLine <;> simp [h]

/-!
## C9: standardize_name
-/

/-- Whether any of the four special-case substrings occurs in the input. -/
def anySpecial (s : String) : Bool :=
  strContains s "ClusterProvisioningDelay" || strContains s "has gone missing"
    || strContains s "Heartbeat.ping has failed" || strContains s "CUST ESCALATION"

/-- C9 counterexample.  A whitespace-only input is text and is not empty,
yet standardize_name fails (str.split yields no token, and the IndexError
is re-raised as the TypeError): the claim's exactly-when condition fails at
this input. -/
theorem standardize_name_whitespace_counterexample :
    standardize_name (some "   ") = .error .typeError
    ∧ some "   " ≠ (none : Option String)
    ∧ "   " ≠ "" :=
  ⟨by decide, by decide, by decide⟩

/-- C9 amended.  First-match-wins in the stated priority order; otherwise
the first whitespace-delimited token truncated to 500 characters; and the
failure condition amended: standardize_name fails exactly when the input is
absent (or, outside this embedding, not text) or is text that matches no
special rule and splits into no whitespace-delimited token, which covers
the empty string and also whitespace-only strings. -/
theorem standardize_name_spec (raw : Option String) :
    (∀ s, raw = some s → strContains s "ClusterProvisioningDelay" = true →
        standardize_name raw = .ok "ClusterProvisioningDelay")
    ∧ (∀ s, raw = some s → strContains s "ClusterProvisioningDelay" = false →
        strContains s "has gone missing" = true →
        standardize_name raw = .ok "ClusterHasGoneMissing")
    ∧ (∀ s, raw = some s → strContains s "ClusterProvisioningDelay" = false →
        strContains s "has gone missing" = false →
        strContains s "Heartbeat.ping has failed" = true →
        standardize_name raw = .ok "HeartbeatPingFailed")
    ∧ (∀ s, raw = some s → strContains s "ClusterProvisioningDelay" = false →
        strContains s "has gone missing" = false →
        strContains s "Heartbeat.ping has failed" = false →
        strContains s "CUST ESCALATION" = true →
        standardize_name raw = .ok "CustomerEscalation")
    ∧ (∀ s w ws, raw = some s → anySpecial s = false → pySplit s = w :: ws →
        standardize_name raw = .ok (String.mk (w.take 500)))
    ∧ ((standardize_name raw).isOk = false ↔
        raw = none ∨ ∃ s, raw = some s ∧ anySpecial s = false ∧ pySplit s = []) := by
  refine ⟨?_, ?_, ?_, ?_, ?_, ?_⟩
  · intro s hs h1
    subst hs
    simp [standardize_name, h1]
  · intro s hs h1 h2
    subst hs
    simp [standardize_name, h1, h2]
  · intro s hs h1 h2 h3
    subst hs
    simp [standardize_name, h1, h2, h3]
  · intro s hs h1 h2 h3 h4
    subst hs
    simp [standardize_name, h1, h2, h3, h4]
  · intro s w ws hs hsp hsplit
    subst hs
    unfold anySpecial at hsp
    rw [Bool.or_eq_false_iff, Bool.or_eq_false_iff, Bool.or_eq_false_iff] at hsp
    obtain ⟨⟨⟨h1, h2⟩, h3⟩, h4⟩ := hsp
    simp [standardize_name, h1, h2, h3, h4, hsplit]
  · cases raw with
    | none => simp [standardize_name, Except.isOk, Except.toBool]
    | some s =>
      cases h1 : strContains s "ClusterProvisioningDelay" with
      | true => simp [standardize_name, h1, Except.isOk, Except.toBool, anySpecial]
      | false =>
        cases h2 : strContains s "has gone missing" with
        | true => simp [standardize_name, h1, h2, Except.isOk, Except.toBool, anySpecial]
        | false =>
          cases h3 : strContains s "Heartbeat.ping has failed" with
          | true => simp [standardize_name, h1, h2, h3, Except.isOk, Except.toBool, anySpecial]
          | false =>
            rcases Bool.eq_false_or_eq_true (strContains s "CUST ESCALATION") with h4 | h4
            · simp [standardize_name, h1, h2, h3, h4, Except.isOk, Except.toBool,
                anySpecial]
            · cases hsplit : pySplit s with
              | nil =>
                simp [standardize_name, h1, h2, h3, h4, hsplit, Except.isOk,
                  Except.toBool, anySpecial]
              | cons w ws =>
                simp [standardize_name, h1, h2, h3, h4, hsplit, Except.isOk,
                  Except.toBool, anySpecial]

/-- C9 witness: the first rule at the claim's example input, and the
failure direction at the empty string through the amended condition. -/
theorem standardize_name_spec_witness :
    standardize_name (some "ClusterProvisioningDelay firing") = .ok "ClusterProvisioningDelay"
    ∧ (standardize_name (some "")).isOk = false :=
  ⟨(standardize_name_spec (some "ClusterProvisioningDelay firing")).1
      "ClusterProvisioningDelay firing" rfl (by decide),
   (standardize_name_spec (some "")).2.2.2.2.2.mpr
      (Or.inr ⟨"", rfl, by decide, by decide⟩)⟩

/-!
## C7 and C8: log reconciliation
-/

/-- The agent external id contributed by an acknowledge entry, none for
any other entry type. -/
def ackId (e : LogEntry) : Option String :=
  if e.type_ == "acknowledge_log_entry" then e.agent.map ApiRef.id else none

/-- The assignee external ids contributed by an assign entry, empty for
any other entry type. -/
def assignIds (e : LogEntry) : List String :=
  if e.type_ == "assign_log_entry" then (e.assignees.getD []).map ApiRef.id else []

theorem agentFromApi_pd_id (s : Session) (d : ApiRef) :
    (agentFromApi s d).1.pd_id = d.id := by
  unfold agentFromApi agentGetOrCreate get_or_create
  cases hf : s.agents.rows.find? (fun r => r.pd_id == d.id) with
  | some r0 =>
    have hb : (r0.pd_id == d.id) = true := by simpa using List.find?_some hf
    simp only [hf]
    exact eq_of_beq hb
  | none =>
    simp only [hf]

theorem incident_append_fields (r : IncidentRow) (ag : Envelope) :
    (incident_append_assigned r ag).assigned_to = r.assigned_to ++ [ag]
    ∧ (incident_append_assigned r ag).acknowledged_by = r.acknowledged_by
    ∧ (incident_append_assigned r ag).resolved_at = r.resolved_at
    ∧ (incident_append_assigned r ag).resolved_by = r.resolved_by := by
  unfold incident_append_assigned
  cases h : containsSilent ag.name <;> simp

theorem assignFold_spec : ∀ (asgs : List ApiRef) (s : Session) (r : IncidentRow),
    ((assignFold (s, r) asgs).2.assigned_to.map Envelope.pd_id
        = r.assigned_to.map Envelope.pd_id ++ asgs.map ApiRef.id)
    ∧ (assignFold (s, r) asgs).2.acknowledged_by = r.acknowledged_by
    ∧ (assignFold (s, r) asgs).2.resolved_at = r.resolved_at
    ∧ (assignFold (s, r) asgs).2.resolved_by = r.resolved_by := by
  intro asgs
  induction asgs with
  | nil =>
    intro s r
    exact ⟨by simp [assignFold], rfl, rfl, rfl⟩
  | cons a as ih =>
    intro s r
    have hstep : assignFold (s, r) (a :: as)
        = assignFold ((agentFromApi s a).2, incident_append_assigned r (agentFromApi s a).1) as := rfl
    rw [hstep]
    obtain ⟨hf1, hf2, hf3, hf4⟩ := incident_append_fields r (agentFromApi s a).1
    obtain ⟨h1, h2, h3, h4⟩ := ih (agentFromApi s a).2 (incident_append_assigned r (agentFromApi s a).1)
    refine ⟨?_, ?_, ?_, ?_⟩
    · rw [h1, hf1]
      simp [agentFromApi_pd_id]
    · rw [h2, hf2]
    · rw [h3, hf3]
    · rw [h4, hf4]

theorem populate_step_resolve (s : Session) (r : IncidentRow) (e : LogEntry)
    (rest : List LogEntry) (t0 : PyDateTime) (ad : ApiRef)
    (ht : (e.type_ == "resolve_log_entry") = true)
    (hct : e.created_at = some t0) (hae : e.agent = some ad) :
    populate_via_api_log s r (e :: rest)
      = populate_via_api_log (agentFromApi s ad).2
          { r with resolved_at := some t0, resolved_by := some (agentFromApi s ad).1 } rest := by
  simp only [populate_via_api_log, ht, hct, hae, if_true]

theorem populate_step_ack (s : Session) (r : IncidentRow) (e : LogEntry)
    (rest : List LogEntry) (ad : ApiRef)
    (ht1 : (e.type_ == "resolve_log_entry") = false)
    (ht2 : (e.type_ == "acknowledge_log_entry") = true)
    (hae : e.agent = some ad) :
    populate_via_api_log s r (e :: rest)
      = populate_via_api_log (agentFromApi s ad).2
          { r with acknowledged_by := r.acknowledged_by ++ [(agentFromApi s ad).1] } rest := by
  simp only [populate_via_api_log, ht1, ht2, hae, Bool.false_eq_true, if_false, if_true]

theorem populate_step_assign (s : Session) (r : IncidentRow) (e : LogEntry)
    (rest : List LogEntry) (asgs : List ApiRef)
    (ht1 : (e.type_ == "resolve_log_entry") = false)
    (ht2 : (e.type_ == "acknowledge_log_entry") = false)
    (ht3 : (e.type_ == "assign_log_entry") = true)
    (hasg : e.assignees = some asgs) :
    populate_via_api_log s r (e :: rest)
      = populate_via_api_log (assignFold (s, r) asgs).1 (assignFold (s, r) asgs).2 rest := by
  simp only [populate_via_api_log, ht1, ht2, ht3, hasg, Bool.false_eq_true, if_false, if_true]

theorem populate_step_other (s : Session) (r : IncidentRow) (e : LogEntry)
    (rest : List LogEntry)
    (ht1 : (e.type_ == "resolve_log_entry") = false)
    (ht2 : (e.type_ == "acknowledge_log_entry") = false)
    (ht3 : (e.type_ == "assign_log_entry") = false) :
    populate_via_api_log s r (e :: rest) = populate_via_api_log s r rest := by
  simp only [populate_via_api_log, ht1, ht2, ht3, Bool.false_eq_true, if_false]

theorem lastResolve_cons_not (e : LogEntry) (rest : List LogEntry)
    (ht : (e.type_ == "resolve_log_entry") = false) :
    lastResolve (e :: rest) = lastResolve rest := by
  cases h : lastResolve rest with
  | some x => simp [lastResolve, h]
  | none => simp [lastResolve, h, ht]

theorem populate_wf_spec : ∀ (es : List LogEntry) (s : Session) (r : IncidentRow),
    (∀ e ∈ es, e.wfB = true) →
    ∃ s2 r2, populate_via_api_log s r es = .ok (s2, r2)
      ∧ r2.acknowledged_by.map Envelope.pd_id
          = r.acknowledged_by.map Envelope.pd_id ++ es.filterMap ackId
      ∧ r2.assigned_to.map Envelope.pd_id
          = r.assigned_to.map Envelope.pd_id ++ (es.map assignIds).flatten
      ∧ (match lastResolve es with
         | none => r2.resolved_at = r.resolved_at ∧ r2.resolved_by = r.resolved_by
         | some e => r2.resolved_at = e.created_at
             ∧ r2.resolved_by.map Envelope.pd_id = e.agent.map ApiRef.id) := by
  intro es
  induction es with
  | nil =>
    intro s r hwf
    exact ⟨s, r, rfl, by simp, by simp, by simp [lastResolve]⟩
  | cons e rest ih =>
    intro s r hwf
    have hwfe : e.wfB = true := hwf e (List.mem_cons_self e rest)
    have hwfr : ∀ x ∈ rest, x.wfB = true := fun x hx => hwf x (List.mem_cons_of_mem e hx)
    cases ht1 : (e.type_ == "resolve_log_entry") with
    | true =>
      have htype : e.type_ = "resolve_log_entry" := eq_of_beq ht1
      have hne2 : (e.type_ == "acknowledge_log_entry") = false := by rw [htype]; decide
      have hne3 : (e.type_ == "assign_log_entry") = false := by rw [htype]; decide
      have hwfe2 : e.created_at.isSome = true ∧ e.agent.isSome = true := by
        unfold LogEntry.wfB at hwfe
        rw [ht1] at hwfe
        simpa using hwfe
      obtain ⟨t0, hct⟩ := Option.isSome_iff_exists.mp hwfe2.1
      obtain ⟨ad, hae⟩ := Option.isSome_iff_exists.mp hwfe2.2
      obtain ⟨s2, r2, heq, hack, hassign, hres⟩ :=
        ih (agentFromApi s ad).2
          { r with resolved_at := some t0, resolved_by := some (agentFromApi s ad).1 } hwfr
      refine ⟨s2, r2, ?_, ?_, ?_, ?_⟩
      · rw [populate_step_resolve s r e rest t0 ad ht1 hct hae, heq]
      · rw [hack]
        simp [List.filterMap_cons, ackId, hne2]
      · rw [hassign]
        simp [assignIds, hne3]
      · rw [show lastResolve (e :: rest)
            = (match lastResolve rest with
               | some x => some x
               | none => some e) from by simp [lastResolve, ht1]]
        cases hlast : lastResolve rest with
        | some x =>
          rw [hlast] at hres
          exact hres
        | none =>
          rw [hlast] at hres
          refine ⟨by rw [hres.1, hct], ?_⟩
          rw [hres.2]
          simp [agentFromApi_pd_id, hae]
    | false =>
      cases ht2 : (e.type_ == "acknowledge_log_entry") with
      | true =>
        have htype : e.type_ = "acknowledge_log_entry" := eq_of_beq ht2
        have hne3 : (e.type_ == "assign_log_entry") = false := by rw [htype]; decide
        have hwfe2 : e.agent.isSome = true := by
          unfold LogEntry.wfB at hwfe
          rw [ht1, ht2] at hwfe
          simpa using hwfe
        obtain ⟨ad, hae⟩ := Option.isSome_iff_exists.mp hwfe2
        obtain ⟨s2, r2, heq, hack, hassign, hres⟩ :=
          ih (agentFromApi s ad).2
            { r with acknowledged_by := r.acknowledged_by ++ [(agentFromApi s ad).1] } hwfr
        refine ⟨s2, r2, ?_, ?_, ?_, ?_⟩
        · rw [populate_step_ack s r e rest ad ht1 ht2 hae, heq]
        · rw [hack]
          simp [List.filterMap_cons, ackId, ht2, hae, agentFromApi_pd_id]
        · rw [hassign]
          simp [assignIds, hne3]
        · rw [lastResolve_cons_not e rest ht1]
          exact hres
      | false =>
        cases ht3 : (e.type_ == "assign_log_entry") with
        | true =>
          have hwfe2 : e.assignees.isSome = true := by
            unfold LogEntry.wfB at hwfe
            rw [ht1, ht2, ht3] at hwfe
            simpa using hwfe
          obtain ⟨asgs, hasg⟩ := Option.isSome_iff_exists.mp hwfe2
          obtain ⟨hf1, hf2, hf3, hf4⟩ := assignFold_spec asgs s r
          obtain ⟨s2, r2, heq, hack, hassign, hres⟩ :=
            ih (assignFold (s, r) asgs).1 (assignFold (s, r) asgs).2 hwfr
          refine ⟨s2, r2, ?_, ?_, ?_, ?_⟩
          · rw [populate_step_assign s r e rest asgs ht1 ht2 ht3 hasg, heq]
          · rw [hack, hf2]
            simp [List.filterMap_cons, ackId, ht2]
          · rw [hassign, hf1]
            simp [assignIds, ht3, hasg]
          · rw [lastResolve_cons_not e rest ht1]
            cases hlast : lastResolve rest with
            | some x =>
              rw [hlast] at hres
              exact hres
            | none =>
              rw [hlast] at hres
              exact ⟨by rw [hres.1, hf3], by rw [hres.2, hf4]⟩
        | false =>
          obtain ⟨s2, r2, heq, hack, hassign, hres⟩ := ih s r hwfr
          refine ⟨s2, r2, ?_, ?_, ?_, ?_⟩
          · rw [populate_step_other s r e rest ht1 ht2 ht3, heq]
          · rw [hack]
            simp [List.filterMap_cons, ackId, ht2]
          · rw [hassign]
            simp [assignIds, ht3]
          · rw [lastResolve_cons_not e rest ht1]
            exact hres

/-- C7.  For every incident state, session, and list of well-formed log
entries, reconciliation succeeds in one ordered pass and: acknowledged_by
is extended, in order, by exactly one upserted agent per acknowledge entry;
assigned_to is extended, in order, by one upserted agent per listed
assignee of each assign entry; the resolution fields reflect the last
resolve entry (its timestamp and its upserted agent), or are untouched when
there is none; and entries of any other type are ignored. -/
theorem populate_via_api_log_spec (es : List LogEntry) (s : Session) (r : IncidentRow)
    (hwf : ∀ e ∈ es, e.wfB = true) :
    ∃ s2 r2, populate_via_api_log s r es = .ok (s2, r2)
      ∧ r2.acknowledged_by.map Envelope.pd_id
          = r.acknowledged_by.map Envelope.pd_id ++ es.filterMap ackId
      ∧ r2.assigned_to.map Envelope.pd_id
          = r.assigned_to.map Envelope.pd_id ++ (es.map assignIds).flatten
      ∧ (match lastResolve es with
         | none => r2.resolved_at = r.resolved_at ∧ r2.resolved_by = r.resolved_by
         | some e => r2.resolved_at = e.created_at
             ∧ r2.resolved_by.map Envelope.pd_id = e.agent.map ApiRef.id) :=
  populate_wf_spec es s r hwf

/-- The three-entry log of the end-to-end example: one resolve, one
acknowledge, one assign-of-two. -/
def threeLog : List LogEntry :=
  [{ type_ := "resolve_log_entry", created_at := some ⟨2024, 1, 5, 10, 0, 0⟩,
     agent := some ⟨"PU1", some "Alice", none⟩ },
   { type_ := "acknowledge_log_entry", agent := some ⟨"PU2", some "Bob", none⟩ },
   { type_ := "assign_log_entry",
     assignees := some [⟨"PU2", some "Bob", none⟩, ⟨"PU3", some "Carol", none⟩] }]

/-- C7 witness: the reconciliation theorem at the three-entry log over a
fresh session and incident: resolution set from the resolve entry, one
acknowledger, two assignees. -/
theorem populate_via_api_log_spec_witness :
    ∃ s2 r2, populate_via_api_log {} { env := ⟨0, "PI1", none, none⟩ } threeLog = .ok (s2, r2)
      ∧ r2.acknowledged_by.map Envelope.pd_id = ["PU2"]
      ∧ r2.assigned_to.map Envelope.pd_id = ["PU2", "PU3"]
      ∧ (r2.resolved_at = some ⟨2024, 1, 5, 10, 0, 0⟩
         ∧ r2.resolved_by.map Envelope.pd_id = some "PU1") :=
  populate_via_api_log_spec threeLog {} { env := ⟨0, "PI1", none, none⟩ } (by decide)

/-- C8 counterexample.  A resolve entry whose agent payload is missing:
reconciliation raises (a KeyError carried with the state mutated so far,
the timestamp having already been stored) and the remaining acknowledge
entry is never processed, so the claim that such an entry is skipped while
reconciliation of the remaining entries continues fails at this input. -/
theorem populate_abort_counterexample :
    populate_via_api_log {} { env := ⟨0, "PI1", none, none⟩ }
        [{ type_ := "resolve_log_entry", created_at := some ⟨2024, 1, 5, 10, 0, 0⟩,
           agent := none },
         { type_ := "acknowledge_log_entry", agent := some ⟨"PU2", some "Bob", none⟩ }]
      = .error (.keyError, {},
          { env := ⟨0, "PI1", none, none⟩, resolved_at := some ⟨2024, 1, 5, 10, 0, 0⟩ })
    ∧ (populate_via_api_log {} { env := ⟨0, "PI1", none, none⟩ }
        [{ type_ := "resolve_log_entry", created_at := some ⟨2024, 1, 5, 10, 0, 0⟩,
           agent := none },
         { type_ := "acknowledge_log_entry", agent := some ⟨"PU2", some "Bob", none⟩ }]).isOk
      = false :=
  ⟨by decide, by decide⟩

/-- C8 amended.  No entry type per se is an error: an entry of an
unrecognized type is ignored and iteration continues.  But an entry of a
handled type that is missing the sub-field its handler dereferences (the
timestamp or agent payload of a resolve, the agent payload of an
acknowledge, the assignee list of an assign) raises a KeyError that aborts
reconciliation of the remaining entries, carrying the state mutated so far;
the exception is then caught per incident by the sync orchestrator, which
skips the whole incident. -/
theorem populate_missing_field_aborts :
    (∀ (s : Session) (r : IncidentRow) (e : LogEntry) (rest : List LogEntry),
        (e.type_ == "resolve_log_entry") = false →
        (e.type_ == "acknowledge_log_entry") = false →
        (e.type_ == "assign_log_entry") = false →
        populate_via_api_log s r (e :: rest) = populate_via_api_log s r rest)
    ∧ (∀ (s : Session) (r : IncidentRow) (e : LogEntry) (rest : List LogEntry),
        (e.type_ == "resolve_log_entry") = true → e.created_at = none →
        populate_via_api_log s r (e :: rest) = .error (.keyError, s, r))
    ∧ (∀ (s : Session) (r : IncidentRow) (e : LogEntry) (rest : List LogEntry)
        (t0 : PyDateTime),
        (e.type_ == "resolve_log_entry") = true → e.created_at = some t0 →
        e.agent = none →
        populate_via_api_log s r (e :: rest)
          = .error (.keyError, s, { r with resolved_at := some t0 }))
    ∧ (∀ (s : Session) (r : IncidentRow) (e : LogEntry) (rest : List LogEntry),
        (e.type_ == "resolve_log_entry") = false →
        (e.type_ == "acknowledge_log_entry") = true → e.agent = none →
        populate_via_api_log s r (e :: rest) = .error (.keyError, s, r))
    ∧ (∀ (s : Session) (r : IncidentRow) (e : LogEntry) (rest : List LogEntry),
        (e.type_ == "resolve_log_entry") = false →
        (e.type_ == "acknowledge_log_entry") = false →
        (e.type_ == "assign_log_entry") = true → e.assignees = none →
        populate_via_api_log s r (e :: rest) = .error (.keyError, s, r)) := by
  refine ⟨?_, ?_, ?_, ?_, ?_⟩
  · intro s r e rest ht1 ht2 ht3
    exact populate_step_other s r e rest ht1 ht2 ht3
  · intro s r e rest ht1 hct
    simp only [populate_via_api_log, ht1, hct, if_true]
  · intro s r e rest t0 ht1 hct hag
    simp only [populate_via_api_log, ht1, hct, hag, if_true]
  · intro s r e rest ht1 ht2 hag
    simp only [populate_via_api_log, ht1, ht2, hag, Bool.false_eq_true, if_false, if_true]
  · intro s r e rest ht1 ht2 ht3 hasg
    simp only [populate_via_api_log, ht1, ht2, ht3, hasg, Bool.false_eq_true, if_false,
      if_true]

/-- C8 witness: the amended theorem at concrete entries: an unrecognized
type is skipped, and an acknowledge entry missing its agent aborts. -/
theorem populate_missing_field_aborts_witness :
    populate_via_api_log {} { env := ⟨0, "PI1", none, none⟩ }
        [{ type_ := "status_update_log_entry" }]
      = populate_via_api_log {} { env := ⟨0, "PI1", none, none⟩ } []
    ∧ populate_via_api_log {} { env := ⟨0, "PI1", none, none⟩ }
        [{ type_ := "acknowledge_log_entry" },
         { type_ := "assign_log_entry", assignees := some [⟨"PU2", some "Bob", none⟩] }]
      = .error (.keyError, {}, { env := ⟨0, "PI1", none, none⟩ }) :=
  ⟨populate_missing_field_aborts.1 {} { env := ⟨0, "PI1", none, none⟩ }
      { type_ := "status_update_log_entry" } [] (by decide) (by decide) (by decide),
   populate_missing_field_aborts.2.2.2.1 {} { env := ⟨0, "PI1", none, none⟩ }
      { type_ := "acknowledge_log_entry" }
      [{ type_ := "assign_log_entry", assignees := some [⟨"PU2", some "Bob", none⟩] }]
      (by decide) (by decide) rfl⟩

/-!
## C10: the incident sync limit
-/

theorem incidentFromApi_ok (s : Session) (d : IncDict) (svc : String)
    (hsvc : d.service_summary = some svc) :
    ∃ s2 r2, incidentFromApi s d = .ok (s2, r2) := by
  unfold incidentFromApi
  simp only [hsvc]
  exact ⟨_, _, rfl⟩

theorem processIncident_ok_of_incDictOk (s : Session) (d : IncDict)
    (h : incDictOk d = true) : ∃ s2 r2, processIncident s d = .ok (s2, r2) := by
  unfold incDictOk at h
  rw [Bool.and_eq_true] at h
  obtain ⟨hs, hl⟩ := h
  obtain ⟨svc, hsvc⟩ := Option.isSome_iff_exists.mp hs
  obtain ⟨sa, ra, ha⟩ := incidentFromApi_ok s d svc hsvc
  obtain ⟨sb, rb, hb, _, _, _⟩ :=
    populate_wf_spec d.log_entries sa ra (List.all_eq_true.mp hl)
  refine ⟨sb.putIncident rb, rb, ?_⟩
  unfold processIncident
  simp only [ha, hb]

theorem update_incidents_zero_limit : ∀ (ds : List IncDict) (s : Session),
    ds.any incDictOk = true → (update_incidents 0 s ds []).2.length = 1 := by
  intro ds
  induction ds with
  | nil =>
    intro s h
    simp at h
  | cons d rest ih =>
    intro s h
    cases hp : processIncident s d with
    | ok p =>
      simp only [update_incidents, hp]
      simp
    | error p =>
      have hrest : rest.any incDictOk = true := by
        cases hd : incDictOk d with
        | true =>
          exfalso
          obtain ⟨s2, r2, hok⟩ := processIncident_ok_of_incDictOk s d hd
          rw [hok] at hp
          exact Except.noConfusion hp
        | false =>
          rw [List.any_cons, hd] at h
          simpa using h
      simp only [update_incidents, hp]
      exact ih p.2 hrest

theorem update_incidents_le_limit : ∀ (ds : List IncDict) (limit : Nat) (s : Session)
    (acc : List IncidentRow), acc.length < limit →
    (update_incidents limit s ds acc).2.length ≤ limit := by
  intro ds
  induction ds with
  | nil =>
    intro limit s acc hacc
    exact Nat.le_of_lt hacc
  | cons d rest ih =>
    intro limit s acc hacc
    cases hp : processIncident s d with
    | error p =>
      simp only [update_incidents, hp]
      exact ih limit p.2 acc hacc
    | ok p =>
      simp only [update_incidents, hp]
      by_cases hbr : limit ≤ (acc ++ [p.2]).length
      · simp only [if_pos hbr]
        simpa using hacc
      · simp only [if_neg hbr]
        exact ih limit p.1 (acc ++ [p.2]) (Nat.lt_of_not_le hbr)

/-- C10.  The early-stop check of update_incidents runs only after a record
is successfully cached: with a limit of 0 and at least one processable
record in the stream, exactly one incident is cached and returned (not
zero); and for every limit of at least 1 the returned list never exceeds
the limit. -/
theorem update_incidents_limit (s : Session) (ds : List IncDict) :
    (ds.any incDictOk = true → (update_incidents 0 s ds []).2.length = 1)
    ∧ (∀ limit, 1 ≤ limit → (update_incidents limit s ds []).2.length ≤ limit) :=
  ⟨fun h => update_incidents_zero_limit ds s h,
   fun limit hl => update_incidents_le_limit ds limit s [] (by simpa using hl)⟩

/-- C10 witness: one processable record; limit 0 still caches and returns
it, and a positive limit bounds the result. -/
theorem update_incidents_limit_witness :
    (update_incidents 0 {}
        [{ id := "PI9", created_at := ⟨2024, 1, 1, 0, 0, 0⟩,
           service_summary := some "svc.prod.example" }] []).2.length = 1
    ∧ (update_incidents 5 {}
        [{ id := "PI9", created_at := ⟨2024, 1, 1, 0, 0, 0⟩,
           service_summary := some "svc.prod.example" }] []).2.length ≤ 5 :=
  ⟨(update_incidents_limit {}
      [{ id := "PI9", created_at := ⟨2024, 1, 1, 0, 0, 0⟩,
         service_summary := some "svc.prod.example" }]).1 (by decide),
   (update_incidents_limit {}
      [{ id := "PI9", created_at := ⟨2024, 1, 1, 0, 0, 0⟩,
         service_summary := some "svc.prod.example" }]).2 5 (by decide)⟩

/-!
## C4: an alert whose parent incident is absent
-/

/-- C4.  The code behavior at the failing input, evaluated: with only
incident PINC2 cached, syncing one alert referencing the absent PINC1
followed by one referencing PINC2 counts a single success — the lookup
failure is a per-item error that neither crashes the run nor stops the
remaining alerts — but the orphaned alert row for PAL1 has already been
staged in the session by the envelope upsert and remains there with an
unset incident reference, contradicting the claim that the alert is not
created in the cache. -/
theorem alert_missing_incident_behavior :
    (update_alerts
        { incidents := ⟨[{ env := ⟨0, "PINC2", none, none⟩ }], 1⟩ }
        [[{ id := "PAL1", summary := some "CPU on fire", created_at := ⟨2024, 1, 5, 10, 0, 0⟩,
            incident_id := "PINC1" },
          { id := "PAL2", summary := some "DiskFull alert", created_at := ⟨2024, 1, 5, 11, 0, 0⟩,
            incident_id := "PINC2" }]]).2 = 1
    ∧ ((update_alerts
        { incidents := ⟨[{ env := ⟨0, "PINC2", none, none⟩ }], 1⟩ }
        [[{ id := "PAL1", summary := some "CPU on fire", created_at := ⟨2024, 1, 5, 10, 0, 0⟩,
            incident_id := "PINC1" },
          { id := "PAL2", summary := some "DiskFull alert", created_at := ⟨2024, 1, 5, 11, 0, 0⟩,
            incident_id := "PINC2" }]]).1.alerts.rows.map
          (fun a => (a.env.pd_id, a.incident)))
        = [("PAL1", none), ("PAL2", some 0)]
    ∧ (alertFromApi
        { incidents := ⟨[{ env := ⟨0, "PINC2", none, none⟩ }], 1⟩ }
        { id := "PAL1", summary := some "CPU on fire", created_at := ⟨2024, 1, 5, 10, 0, 0⟩,
          incident_id := "PINC1" }).isOk = false :=
  ⟨by decide, by decide, by decide⟩
